import Mathlib

set_option maxRecDepth 4000

/-!
Shallow embedding of `src/nocturn.c` (Novation Nocturn USB-MIDI bridge) and
verification of its specified behaviour: the running-status decoder, the
control-change forwarding policy, the hex bring-up payload helper, the
endpoint-resolution step of `usb_connect`, the receive-transfer bookkeeping of
`receive_loop`, and the reconnection loop of `main`.
-/

namespace Nocturn

/-- A completed MIDI-like message as assembled by `process` (`nocturn.c`):
status is the high nibble of the last status byte, chan its low nibble;
data1 and data2 are the two data bytes.  All fields are C `int`s. -/
structure Event where
  status : Int
  chan : Int
  data1 : Int
  data2 : Int
deriving DecidableEq

/-- One call to the external sink `midi_send_control_change(channel, controller,
value)` from `midi.h`. -/
structure SinkCall where
  channel : Int
  controller : Int
  value : Int
deriving DecidableEq

/-- `event` (nocturn.c:92-109), with `CC72_TEST` undefined: for status 176 (0xB0)
it prints the event line only when `data1 < 96 || data1 > 103` and then calls
`midi_send_control_change(1, data1, data2)` unconditionally; other statuses do
nothing.  The result records the sink calls made and the fields of the printed
line, if any. -/
def event (status chan data1 data2 : Int) :
    List SinkCall × Option (Int × Int × Int × Int) :=
  if status = 176 then
    ([⟨1, data1, data2⟩],
      if data1 < 96 ∨ data1 > 103 then some (status, chan, data1, data2) else none)
  else
    ([], none)

/-- `enum midi_state` (nocturn.c:111). -/
inductive midi_state
  | STATUS
  | DATA1
  | DATA2
deriving DecidableEq

/-- The static locals of `process` (nocturn.c:116-119) made explicit:
`state = STATUS`, `status = -1`, `chan = -1`, and `data1`, which has static
storage duration and is therefore zero-initialized. -/
structure DecoderState where
  state : midi_state
  status : Int
  chan : Int
  data1 : Int
deriving DecidableEq

/-- The initial values of the static locals of `process`. -/
def decoderInit : DecoderState := ⟨midi_state.STATUS, -1, -1, 0⟩

/-- `process` (nocturn.c:114-136): one byte through the running-status state
machine, the static state threaded explicitly.  `data &= 0xff` first; a byte
with bit 7 set always installs a new status/channel and moves to DATA1; a data
byte is dropped in STATUS, stored in DATA1, and completes an event in DATA2,
after which the state returns to DATA1.  Returns the new state and the event
passed to `event`, if one was completed. -/
def process (s : DecoderState) (d : Int) : DecoderState × Option Event :=
  let data := Int.land d 255
  if Int.land data 128 ≠ 0 then
    ({ s with status := Int.land data 240, chan := Int.land data 15,
              state := midi_state.DATA1 }, none)
  else
    match s.state with
    | midi_state.STATUS => (s, none)
    | midi_state.DATA1 => ({ s with data1 := data, state := midi_state.DATA2 }, none)
    | midi_state.DATA2 =>
        ({ s with state := midi_state.DATA1 }, some ⟨s.status, s.chan, s.data1, data⟩)

/-- `process_buffer` (nocturn.c:139-143): feed each byte of the buffer through
`process` in order, collecting the emitted events. -/
def process_buffer (s : DecoderState) : List Int → DecoderState × List Event
  | [] => (s, [])
  | d :: rest =>
    ((process_buffer (process s d).1 rest).1,
      (process s d).2.toList ++ (process_buffer (process s d).1 rest).2)

/-- `digit` (nocturn.c:163-166): `hexdigit - '0' - ((hexdigit > '9') ? ('a' -
('9' + 1)) : 0)` over C `int`, where `'0' = 48`, `'9' = 57` and
`'a' - ('9' + 1) = 39`.  The argument is the character code. -/
def digit (hexdigit : Nat) : Int :=
  (hexdigit : Int) - 48 - (if 57 < hexdigit then 39 else 0)

/-- The 32-bit two's-complement reinterpretation of a C `int` value, used to
model its bitwise operators. -/
def toU32 (a : Int) : Nat := (Int.emod a 4294967296).toNat

/-- The C `int` value of a 32-bit two's-complement word. -/
def ofU32 (n : Nat) : Int :=
  if n < 2147483648 then (n : Int) else (n : Int) - 4294967296

/-- C `|` on `int`: bitwise or of the two's-complement words. -/
def cOr (a b : Int) : Int := ofU32 (Nat.lor (toU32 a) (toU32 b))

/-- C `<< k` on `int`: shift of the two's-complement word (the gcc/clang
semantics; defined in C itself only for non-negative left operands). -/
def cShl (a : Int) (k : Nat) : Int := ofU32 (toU32 a * 2 ^ k % 4294967296)

/-- `byte` (nocturn.c:169-172): `(digit(string[0]) << 4) | digit(string[1])` over
C `int`. -/
def byte (c0 c1 : Nat) : Int :=
  cOr (cShl (digit c0) 4) (digit c1)

/-- The conversion loop of `send_hexdata` (nocturn.c:189-192): consume the
string two characters at a time, storing each `byte` into the `uint8_t` buffer
(conversion to `uint8_t` reduces the value mod 256).  The call sites pass
even-length strings. -/
def send_hexdata_bytes : List Nat → List Nat
  | c0 :: c1 :: rest => (Int.emod (byte c0 c1) 256).toNat :: send_hexdata_bytes rest
  | _ => []

/-- Spec-side value of a hex digit character: 0-9 map to 0-9 and lowercase a-f
map to 10-15. -/
def hexVal (c : Nat) : Nat := if c ≤ 57 then c - 48 else c - 87

/-- Spec-side list of the lowercase hex digit characters 0-9, a-f. -/
def lowerHexChars : List Nat :=
  [48, 49, 50, 51, 52, 53, 54, 55, 56, 57, 97, 98, 99, 100, 101, 102]

/-- Endpoint classification of `usb_connect` (nocturn.c:208-282).  `rx_ep` and
`tx_ep` are `uint8_t` initialized to `(uint8_t)-1 = 255`; `ep0` and `ep1` are
the two `bEndpointAddress` values of configuration 1, interface 0, altsetting 0;
bit 7 set marks a receiving endpoint.  The guard `tx_ep < 0 || rx_ep < 0`
compares the values after integer promotion, i.e. as the mathematical integers
0..255.  Returns `.error ()` when the `LIBUSB_ERROR_NO_DEVICE` branch at
nocturn.c:279-282 is taken and `.ok (rx_ep, tx_ep)` otherwise. -/
def usb_connect_endpoints (ep0 ep1 : Nat) : Except Unit (Nat × Nat) :=
  let rx0 : Nat := 255
  let tx0 : Nat := 255
  let rt1 : Nat × Nat := if Nat.land ep0 128 ≠ 0 then (ep0, tx0) else (rx0, ep0)
  let rt2 : Nat × Nat := if Nat.land ep1 128 ≠ 0 then (ep1, rt1.2) else (rt1.1, ep1)
  if (rt2.2 : Int) < 0 ∨ (rt2.1 : Int) < 0 then Except.error ()
  else Except.ok rt2

/-- Receive-transfer bookkeeping of `receive_loop` (nocturn.c:381-509): the
number of submitted-but-not-yet-completed transfers on the connection, and the
`resubmit` flag shared with `rx_cb`. -/
structure ReactorState where
  outstanding : Nat
  resubmit : Bool
deriving DecidableEq

/-- The state after the initial `libusb_submit_transfer` succeeds and
`resubmit = 0` (nocturn.c:408-414). -/
def reactorInit : ReactorState := ⟨1, false⟩

/-- The steps of the `receive_loop` body that touch the transfer:
`rxComplete` is a completion delivered inside `libusb_handle_events_timeout`
(nocturn.c:491), which runs `rx_cb` (nocturn.c:146-159) synchronously —
`rx_cb` sets `resubmit = 1` whatever the transfer status; `rxResubmit` is the
resubmission block (nocturn.c:498-506), which clears the flag and then submits
the transfer again. -/
inductive ReactorStep : ReactorState → ReactorState → Prop
  | rxComplete (b : Bool) : ReactorStep ⟨1, b⟩ ⟨0, true⟩
  | rxResubmit (o : Nat) : ReactorStep ⟨o, true⟩ ⟨o + 1, false⟩

/-- The observable actions of one pass of the reconnection loop of `main`. -/
inductive SupEvent
  | sleep1
  | connectAttempt
  | bringUp
  | reactorRun
deriving DecidableEq

/-- One scripted iteration of the reconnection loop of `main`: the value
returned by its `usb_connect` call and the value returned by its
`nocturn_init` call.  The latter call is reached, and its scripted value
meaningful, only when the former is not a failure. -/
structure SupIter where
  connectStat : Int
  initStat : Int
deriving DecidableEq

/-- The reconnection loop of `main` (nocturn.c:569-597), traced until the
first entry into `receive_loop`.  `stat` is the status left by the previous
iteration (0 on first entry, nocturn.c:552).  Each iteration sleeps one second
when `stat` is nonzero, then attempts to connect; on `usb_connect` failure
(negative return, nocturn.c:577-580) it continues with that error as the new
`stat`; otherwise it performs the device bring-up (`nocturn_init`,
nocturn.c:585), and on bring-up failure (negative return, nocturn.c:586-589)
continues with that error as the new `stat`; otherwise it enters
`receive_loop` (reactor entry). -/
def supervisor_trace (stat : Int) : List SupIter → List SupEvent
  | [] => []
  | it :: rest =>
    (if stat ≠ 0 then [SupEvent.sleep1] else []) ++
      SupEvent.connectAttempt ::
        (if it.connectStat < 0 then supervisor_trace it.connectStat rest
         else if it.initStat < 0 then
           SupEvent.bringUp :: supervisor_trace it.initStat rest
         else [SupEvent.bringUp, SupEvent.reactorRun])

/-- The MIDI dispatch of one `receive_loop` iteration (nocturn.c:493-496): for
each MIDI pollfd whose `revents` has `POLLIN` (= 1) set, `midi_input()` is
called once; the result is the number of `midi_input` calls made in the
iteration, given the `revents` words of the MIDI descriptors. -/
def midi_phase : List Nat → Nat
  | [] => 0
  | r :: rest => (if Nat.land r 1 ≠ 0 then 1 else 0) + midi_phase rest

/-! Helper lemmas. -/

/-- Masking with 0xff is the identity on byte values. -/
theorem nat_land_255 : ∀ n < 256, Nat.land n 255 = n := by decide

/-- A value below 128 has bit 7 clear. -/
theorem nat_land_128 : ∀ n < 128, Nat.land n 128 = 0 := by decide

/-- A data byte (value < 128) leaves the remembered status and channel of the
decoder unchanged, and in state STATUS it changes nothing at all and emits no
event. -/
theorem process_data_byte (s : DecoderState) (n : Nat) (hn : n < 128) :
    (process s (↑n)).1.status = s.status ∧ (process s (↑n)).1.chan = s.chan ∧
      (s.state = midi_state.STATUS → process s (↑n) = (s, none)) := by
  have h255 : Int.land (↑n) 255 = ((Nat.land n 255 : Nat) : Int) := rfl
  rw [nat_land_255 n (by omega)] at h255
  have h128 : Int.land (↑n) 128 = ((Nat.land n 128 : Nat) : Int) := rfl
  rw [nat_land_128 n hn] at h128
  push_cast at h128
  obtain ⟨st, st0, ch, d1⟩ := s
  cases st <;> simp [process, h255, h128]

/-- Along any run of the reactor from `reactorInit`, the outstanding transfers
plus a pending resubmission never exceed one. -/
theorem reactor_invariant (s : ReactorState)
    (h : Relation.ReflTransGen ReactorStep reactorInit s) :
    s.outstanding + (if s.resubmit then 1 else 0) ≤ 1 := by
  induction h with
  | refl => decide
  | tail _ hstep ih =>
    cases hstep with
    | rxComplete b => simp
    | rxResubmit o =>
      simp only [if_pos, if_neg] at ih ⊢
      simp at ih ⊢
      omega

/-- After a failed iteration, each further scripted connect failure
contributes one sleep and one connect attempt, and a final iteration whose
connect and bring-up both succeed contributes a sleep, an attempt, the
bring-up and the reactor entry. -/
theorem supervisor_trace_failures :
    ∀ (fs : List SupIter) (prev : Int), prev < 0 →
      (∀ it ∈ fs, it.connectStat < 0) →
      supervisor_trace prev (fs ++ [⟨0, 0⟩]) =
        (List.replicate fs.length
            [SupEvent.sleep1, SupEvent.connectAttempt]).flatten ++
          [SupEvent.sleep1, SupEvent.connectAttempt, SupEvent.bringUp,
            SupEvent.reactorRun] := by
  intro fs
  induction fs with
  | nil =>
    intro prev hprev _
    simp only [List.nil_append, supervisor_trace]
    rw [if_pos (show prev ≠ 0 by omega),
      if_neg (show ¬ (⟨0, 0⟩ : SupIter).connectStat < 0 by decide),
      if_neg (show ¬ (⟨0, 0⟩ : SupIter).initStat < 0 by decide)]
    simp
  | cons f rest ih =>
    intro prev hprev hall
    have hf : f.connectStat < 0 := hall f (by simp)
    have hrest : ∀ it ∈ rest, it.connectStat < 0 := fun it hx => hall it (by simp [hx])
    simp only [List.cons_append, supervisor_trace, List.append_eq]
    rw [if_pos (show prev ≠ 0 by omega), if_pos hf, ih f.connectStat hf hrest]
    simp [List.replicate_succ]

/-- A block of replicated lists commutes with one more copy of the block. -/
theorem flatten_replicate_comm (n : Nat) (L : List SupEvent) :
    (List.replicate n L).flatten ++ L = L ++ (List.replicate n L).flatten := by
  induction n with
  | zero => simp
  | succ k ih =>
    simp only [List.replicate_succ, List.flatten_cons, List.append_assoc, ih]

/-- Each sleep/attempt block contributes exactly one connect attempt. -/
theorem count_attempt_replicate (n : Nat) :
    ((List.replicate n
        [SupEvent.sleep1, SupEvent.connectAttempt]).flatten).count
        SupEvent.connectAttempt = n := by
  induction n with
  | zero => rfl
  | succ k ih =>
    simp [List.replicate_succ, List.count_append, ih, List.count_cons]

/-! Claims. -/

/-- C1 counterexample: a decoded control-change event with data1 = 96 (inside
the incrementor-touch range 96..103) IS forwarded to the external sink —
`event` calls `midi_send_control_change(1, 96, 0)` — refuting the claim that
no sink call occurs for that range. -/
theorem c1_counterexample :
    (event 176 0 96 0).1 = [⟨1, 96, 0⟩] ∧ (event 176 0 96 0).1 ≠ [] := by
  decide

/-- C1 (amended): every control-change event (status 176) is forwarded to the
sink as `midi_send_control_change(1, data1, data2)`, including those with
data1 in the incrementor-touch range 96..103; that range suppresses only the
console log line.  Events of any other status produce no sink call and no log
line. -/
theorem c1_event_forwarding (status chan data1 data2 : Int) :
    (status = 176 →
      (event status chan data1 data2).1 = [⟨1, data1, data2⟩] ∧
        ((event status chan data1 data2).2 ≠ none ↔ data1 < 96 ∨ data1 > 103)) ∧
    (status ≠ 176 → event status chan data1 data2 = ([], none)) := by
  constructor
  · intro h
    subst h
    constructor
    · simp [event]
    · by_cases hd : data1 < 96 ∨ data1 > 103 <;> simp [event, hd]
  · intro h
    simp [event, h]

/-- C1 witness: the amended theorem applied to the suppressed-range event
(176, 0, 96, 0): the sink call is made and the log line is not printed. -/
theorem c1_event_forwarding_witness :
    (event 176 0 96 0).1 = [⟨1, 96, 0⟩] ∧
      ¬ ((event 176 0 96 0).2 ≠ none ∧ ((96:Int) < 96 ∨ (96:Int) > 103)) := by
  have h := (c1_event_forwarding 176 0 96 0).1 rfl
  exact ⟨h.1, by simp⟩

/-- C2: with both endpoint addresses inbound (direction bit 7 set: 0x81 and
0x82), the endpoint-resolution check of `usb_connect` does not fire: `tx_ep`
is an unsigned `uint8_t` left at its 255 sentinel, so `tx_ep < 0` is false and
the function proceeds, yielding rx_ep = 0x82 and tx_ep = 255 instead of the
claimed `LIBUSB_ERROR_NO_DEVICE` failure. -/
theorem c2_endpoint_check_dead :
    usb_connect_endpoints 129 130 = Except.ok (130, 255) := by rfl

/-- C3 counterexample: in an iteration where two External descriptors report
POLLIN, `midi_input` is invoked twice, refuting "at most once per iteration
regardless of how many External descriptors reported readable". -/
theorem c3_counterexample :
    midi_phase [1, 1] = 2 ∧ ¬ midi_phase [1, 1] ≤ 1 := by decide

/-- C3 (amended): `midi_input` is invoked exactly once per External descriptor
that reported POLLIN — hence at most once per iteration only when at most one
External descriptor is polled. -/
theorem c3_midi_input_per_descriptor (revs : List Nat) :
    midi_phase revs = (revs.filter (fun r => Nat.land r 1 != 0)).length ∧
      (revs.length ≤ 1 → midi_phase revs ≤ 1) := by
  constructor
  · induction revs with
    | nil => rfl
    | cons r rest ih =>
      by_cases h : Nat.land r 1 ≠ 0
      · simp [midi_phase, List.filter_cons, h, ih, Nat.add_comm]
      · simp [midi_phase, List.filter_cons, h, ih]
  · intro hlen
    match revs, hlen with
    | [], _ => decide
    | [r], _ =>
      by_cases h : Nat.land r 1 ≠ 0 <;> simp [midi_phase, h]

/-- C3 witness: with a single External descriptor reporting POLLIN, the drain
runs at most once. -/
theorem c3_midi_input_per_descriptor_witness : midi_phase [1] ≤ 1 :=
  (c3_midi_input_per_descriptor [1]).2 (by decide)

/-- C4 counterexample: the hex decoder is not case-insensitive — the pair "0A"
decodes to -22 while "0a" decodes to 10, because `digit` subtracts the
lowercase offset 39 from every character above '9'. -/
theorem c4_counterexample :
    byte 48 65 ≠ byte 48 97 ∧ byte 48 97 = 10 ∧ byte 48 65 = -22 := by decide

/-- C4 (amended): each pair of hex digits is decoded independently, most
significant nibble first, correctly for the digits 0-9 and lowercase a-f
(matching the spec-side value `16 * hexVal c0 + hexVal c1`, a byte in 0..255);
uppercase digits decode differently from their lowercase forms; in particular
"b04800" decodes to the bytes [0xB0, 0x48, 0x00]. -/
theorem c4_hex_decode :
    (∀ c0 ∈ lowerHexChars, ∀ c1 ∈ lowerHexChars,
        byte c0 c1 = 16 * hexVal c0 + hexVal c1 ∧
          0 ≤ byte c0 c1 ∧ byte c0 c1 < 256) ∧
      digit 65 ≠ digit 97 ∧
      send_hexdata_bytes [98, 48, 52, 56, 48, 48] = [176, 72, 0] := by decide

/-- C5: at every reachable point of the reactor loop the number of outstanding
receive transfers is 0 or 1, never more; and the only step that submits a new
transfer requires the completion callback to have set the `resubmit` flag and
clears the flag as it resubmits. -/
theorem c5_at_most_one_transfer :
    (∀ s, Relation.ReflTransGen ReactorStep reactorInit s → s.outstanding ≤ 1) ∧
      (∀ s t, ReactorStep s t → s.outstanding < t.outstanding →
        s.resubmit = true ∧ t.resubmit = false) := by
  constructor
  · intro s h
    have hi := reactor_invariant s h
    cases hr : s.resubmit <;> rw [hr] at hi <;> simp at hi <;> omega
  · intro s t hstep hlt
    cases hstep with
    | rxComplete b => simp at hlt
    | rxResubmit o => exact ⟨rfl, rfl⟩

/-- C5 witness: the state reached after the first completion callback (zero
outstanding transfers, resubmission pending) satisfies the bound. -/
theorem c5_at_most_one_transfer_witness :
    (⟨0, true⟩ : ReactorState).outstanding ≤ 1 :=
  c5_at_most_one_transfer.1 ⟨0, true⟩
    (Relation.ReflTransGen.single (ReactorStep.rxComplete false))

/-- C6: feeding [0xB0, 0x10, 0x40, 0x20, 0x50] from the initial decoder state
emits exactly the events (176, 0, 0x10, 0x40) and (176, 0, 0x20, 0x50) in that
order, and the state after the first emission and at the end is DATA1, not
STATUS — the running-status behaviour. -/
theorem c6_running_status :
    (process_buffer decoderInit [176, 16, 64, 32, 80]).2 =
        [⟨176, 0, 16, 64⟩, ⟨176, 0, 32, 80⟩] ∧
      (process_buffer decoderInit [176, 16, 64]).1.state = midi_state.DATA1 ∧
      (process_buffer decoderInit [176, 16, 64, 32, 80]).1.state =
        midi_state.DATA1 := by
  decide

/-- C7: boundary-independence of decoding — for every split of a byte sequence
into a prefix and a suffix and every starting state, feeding the two pieces
through `process_buffer` in two calls, threading the state, yields the same
final state and the same event sequence as one call on the whole sequence. -/
theorem c7_split_independence (s : DecoderState) (xs ys : List Int) :
    (process_buffer s (xs ++ ys)).1 = (process_buffer (process_buffer s xs).1 ys).1 ∧
      (process_buffer s (xs ++ ys)).2 =
        (process_buffer s xs).2 ++ (process_buffer (process_buffer s xs).1 ys).2 := by
  induction xs generalizing s with
  | nil => simp [process_buffer]
  | cons d rest ih =>
    obtain ⟨h1, h2⟩ := ih (process s d).1
    simp only [List.cons_append, process_buffer, List.append_eq]
    exact ⟨h1, by rw [h2, List.append_assoc]⟩

/-- C8: the decoder is total — for every state and byte value `process`
returns a result (there is no failing branch) — and a data byte (high bit
clear) processed in state STATUS emits no event and leaves the decoder state
unchanged. -/
theorem c8_decoder_total (s : DecoderState) (d : Int) (h0 : 0 ≤ d) (h1 : d < 256) :
    (∃ r, process s d = r) ∧
      (d < 128 → s.state = midi_state.STATUS → process s d = (s, none)) := by
  refine ⟨⟨process s d, rfl⟩, fun hd hst => ?_⟩
  obtain ⟨n, rfl⟩ : ∃ n : Nat, d = ↑n := ⟨d.toNat, (Int.toNat_of_nonneg h0).symm⟩
  exact (process_data_byte s n (by exact_mod_cast hd)).2.2 hst

/-- C8 witness: the data byte 0x10 processed in the initial (STATUS) state
emits nothing and leaves the state unchanged. -/
theorem c8_decoder_total_witness : process decoderInit 16 = (decoderInit, none) :=
  (c8_decoder_total decoderInit 16 (by decide) (by decide)).2 (by decide) rfl

/-- C9 counterexample: with zero connect failures followed by a connect
success whose bring-up then fails (nocturn_init returns -1), the supervisor
does not proceed to reactor entry after the first attempt: it backs off and
issues a second connect attempt (two in total, not N+1 = 1), entering the
reactor only after the second, successful bring-up. -/
theorem c9_counterexample :
    supervisor_trace 0 [⟨0, -1⟩, ⟨0, 0⟩] =
        [SupEvent.connectAttempt, SupEvent.bringUp, SupEvent.sleep1,
          SupEvent.connectAttempt, SupEvent.bringUp, SupEvent.reactorRun] ∧
      (supervisor_trace 0 [⟨0, -1⟩, ⟨0, 0⟩]).count SupEvent.connectAttempt ≠ 1 := by
  decide

/-- C9 (amended): for N consecutive failed connect attempts followed by an
iteration whose connect and device bring-up both succeed, the supervisor
performs exactly N+1 connect attempts, sleeping one second before every
attempt that follows a failed iteration and not before the first, and then
proceeds to bring-up and reactor entry. -/
theorem c9_supervisor_backoff (fs : List SupIter)
    (hf : ∀ it ∈ fs, it.connectStat < 0) :
    supervisor_trace 0 (fs ++ [⟨0, 0⟩]) =
        SupEvent.connectAttempt ::
          ((List.replicate fs.length
              [SupEvent.sleep1, SupEvent.connectAttempt]).flatten ++
            [SupEvent.bringUp, SupEvent.reactorRun]) ∧
      (supervisor_trace 0 (fs ++ [⟨0, 0⟩])).count SupEvent.connectAttempt =
        fs.length + 1 := by
  have key : supervisor_trace 0 (fs ++ [⟨0, 0⟩]) =
      SupEvent.connectAttempt ::
        ((List.replicate fs.length
            [SupEvent.sleep1, SupEvent.connectAttempt]).flatten ++
          [SupEvent.bringUp, SupEvent.reactorRun]) := by
    cases fs with
    | nil => decide
    | cons f rest =>
      have hf0 : f.connectStat < 0 := hf f (by simp)
      have hrest : ∀ it ∈ rest, it.connectStat < 0 := fun it hx => hf it (by simp [hx])
      simp only [List.cons_append, supervisor_trace, List.append_eq]
      rw [if_neg (show ¬ (0:Int) ≠ 0 by decide), if_pos hf0,
        supervisor_trace_failures rest f.connectStat hf0 hrest]
      simp only [List.nil_append, List.length_cons, List.replicate_succ,
        List.flatten_cons, List.cons.injEq, true_and]
      rw [← flatten_replicate_comm]
      simp
  refine ⟨key, ?_⟩
  rw [key]
  simp [List.count_cons, List.count_append, count_attempt_replicate]

/-- C9 witness: two scripted connect failures then a fully successful
iteration yield three connect attempts with a sleep before the second and
third only, then bring-up and reactor entry. -/
theorem c9_supervisor_backoff_witness :
    supervisor_trace 0 ([⟨-5, 0⟩, ⟨-1, 0⟩] ++ [⟨0, 0⟩]) =
        SupEvent.connectAttempt ::
          ((List.replicate (List.length ([⟨-5, 0⟩, ⟨-1, 0⟩] : List SupIter))
              [SupEvent.sleep1, SupEvent.connectAttempt]).flatten ++
            [SupEvent.bringUp, SupEvent.reactorRun]) ∧
      (supervisor_trace 0 ([⟨-5, 0⟩, ⟨-1, 0⟩] ++ [⟨0, 0⟩])).count
          SupEvent.connectAttempt =
        List.length ([⟨-5, 0⟩, ⟨-1, 0⟩] : List SupIter) + 1 :=
  c9_supervisor_backoff [⟨-5, 0⟩, ⟨-1, 0⟩] (by decide)

/-- C10: frame condition — a data byte (high bit clear) never changes the
remembered status byte or channel, in any state; conversely, if either of them
changed, the processed byte had its high bit set. -/
theorem c10_frame (s : DecoderState) (d : Int) (h0 : 0 ≤ d) (h1 : d < 256) :
    (d < 128 → (process s d).1.status = s.status ∧ (process s d).1.chan = s.chan) ∧
      ((process s d).1.status ≠ s.status ∨ (process s d).1.chan ≠ s.chan →
        128 ≤ d) := by
  obtain ⟨n, rfl⟩ : ∃ n : Nat, d = ↑n := ⟨d.toNat, (Int.toNat_of_nonneg h0).symm⟩
  constructor
  · intro hd
    have h := process_data_byte s n (by exact_mod_cast hd)
    exact ⟨h.1, h.2.1⟩
  · intro hne
    by_contra hlt
    push_neg at hlt
    have h := process_data_byte s n (by exact_mod_cast hlt)
    rcases hne with h1 | h2
    · exact h1 h.1
    · exact h2 h.2.1

/-- C10 witness: the data byte 0x10 leaves the status of the initial decoder
state unchanged. -/
theorem c10_frame_witness :
    (process decoderInit 16).1.status = decoderInit.status ∧
      (process decoderInit 16).1.chan = decoderInit.chan :=
  (c10_frame decoderInit 16 (by decide) (by decide)).1 (by decide)

end Nocturn
